import Mathlib

/-!
Shallow embedding of the app-reply-bot review-ingestion system.

Conventions of the embedding:
* JS timestamps (`Date` values, ISO strings compared after parsing) are
  modelled as `Int` milliseconds since the epoch; comparison of two dates in
  the source is numeric comparison of these values.
* JS strings are modelled as `String` (for identifiers and messages) or as
  `List Char` where the source indexes/slices into the text
  (`slice`, `lastIndexOf`).
* Vendor HTTP pagination is modelled by giving each fetch the full sequence of
  pages the vendor would serve, in order; "a next page token / next link is
  present" corresponds to the tail of that sequence being nonempty.
* Asynchronous effectful code is modelled by explicit state passing: the
  database tables are lists of rows threaded through the functions, and
  outbound effects (fetch attempts, cursor updates, Telegram notifications)
  are accumulated in an explicit `Effects` record.
* Fallible calls are modelled with `Except String`, the error being the JS
  error message.
-/

/-- JS `String.prototype.includes`: `isPrefixSeq pat l` is true when `pat`
occurs at the start of `l`. -/
def isPrefixSeq : List Char → List Char → Bool
  | [], _ => true
  | _ :: _, [] => false
  | p :: ps, x :: xs => p == x && isPrefixSeq ps xs

/-- Predicate `hasSubSeq pat l` is true when `pat` occurs contiguously inside `l`. -/
def hasSubSeq (pat : List Char) : List Char → Bool
  | [] => isPrefixSeq pat []
  | x :: xs => isPrefixSeq pat (x :: xs) || hasSubSeq pat xs

/-- JS `s.includes(pat)` on the string model. -/
def jsIncludes (s pat : String) : Bool :=
  hasSubSeq pat.toList s.toList

/-- JS `s.lastIndexOf(c)`: the largest index of `c` in `s`, `-1` if absent. -/
def jsLastIndexOf (s : List Char) (c : Char) : Int :=
  match (s.reverse).findIdx? (fun x => x == c) with
  | none => -1
  | some j => (s.length : Int) - 1 - j

/-- The `store` column: which vendor a Resource/Account/Review belongs to. -/
inductive StoreKind where
  | app_store
  | play_store
deriving DecidableEq, Repr

/-- Row of the `accounts` table (the fields the core logic reads). -/
structure AccountRow where
  id : String
  is_valid : Bool
  validation_error : Option String
  credential_data : String
  apple_key_id : Option String
  apple_issuer_id : Option String
deriving DecidableEq, Repr

namespace PlayStoreClient

/-- Shape of `review.comments[i].userComment` of the Google Play API response. -/
structure PlayUserComment where
  lastModifiedSeconds : Option Int
  starRating : Option Int
  text : Option String
  reviewerLanguage : Option String
  androidOsVersion : Option Int
  appVersionCode : Option Int
  appVersionName : Option String
  device : Option String
deriving DecidableEq, Repr

/-- One element of `review.comments` of the Google Play API response;
`developerComment` records whether a developer comment is present. -/
structure PlayRawComment where
  userComment : Option PlayUserComment
  developerComment : Bool
deriving DecidableEq, Repr

/-- One raw review object served by the Google Play API. -/
structure PlayRawReview where
  reviewId : Option String
  authorName : Option String
  comments : List PlayRawComment
deriving DecidableEq, Repr

/-- Record `ParsedPlayStoreReview` of `playStoreClient.ts`. -/
structure ParsedPlayStoreReview where
  externalId : String
  rating : Int
  title : Option String
  body : String
  reviewerName : String
  reviewDate : Int
  language : String
  hasResponse : Bool
  androidOsVersion : Option String
  appVersionCode : Option Int
  appVersionName : Option String
  device : Option String
deriving DecidableEq, Repr

/-- JS `x || d` on an optional string: empty or missing falls back. -/
def strOrElse (x : Option String) (d : String) : String :=
  match x with
  | none => d
  | some s => if s = "" then d else s

/-- JS `x || undefined` on an optional string: empty becomes missing. -/
def strOrNone (x : Option String) : Option String :=
  match x with
  | none => none
  | some s => if s = "" then none else some s

/-- The record pushed by `PlayStoreClient.fetchReviews` for a raw review
whose first comment's user comment is `c`; `reviewDate` was computed from
`c.lastModified.seconds` (or `new Date()`, i.e. `now`). -/
def parseReview (r : PlayRawReview) (c : PlayUserComment) (reviewDate : Int) :
    ParsedPlayStoreReview :=
  { externalId := (r.reviewId).getD ""
    rating := (c.starRating).getD 0
    title := none
    body := (c.text).getD ""
    reviewerName := strOrElse r.authorName "Anonymous"
    reviewDate := reviewDate
    language := strOrElse c.reviewerLanguage "en"
    hasResponse := r.comments.any (fun cm => cm.developerComment)
    androidOsVersion := (c.androidOsVersion).map (fun n => toString n)
    appVersionCode := c.appVersionCode
    appVersionName := strOrNone c.appVersionName
    device := c.device }

/-- JS `comment.lastModified.seconds ? new Date(seconds*1000) : new Date()`. -/
def reviewDateOf (c : PlayUserComment) (now : Int) : Int :=
  match c.lastModifiedSeconds with
  | some s => s * 1000
  | none => now

/-- The inner `for` loop of `PlayStoreClient.fetchReviews` over one page:
skips reviews with no user comment, stops (returning `true`) at the first
review whose date is `<= lastPollAt`, otherwise appends the parsed review. -/
def processPage (lastPollAt : Option Int) (now : Int) :
    List PlayRawReview → List ParsedPlayStoreReview →
    List ParsedPlayStoreReview × Bool
  | [], acc => (acc, false)
  | r :: rest, acc =>
    match (r.comments.head?).bind (fun cm => cm.userComment) with
    | none => processPage lastPollAt now rest acc
    | some c =>
      let reviewDate := reviewDateOf c now
      match lastPollAt with
      | some lp =>
        if reviewDate ≤ lp then (acc, true)
        else processPage lastPollAt now rest (acc ++ [parseReview r c reviewDate])
      | none => processPage lastPollAt now rest (acc ++ [parseReview r c reviewDate])

/-- The `do … while (pageToken && reviews.length < maxResults &&
!reachedOldReviews)` pagination loop of `PlayStoreClient.fetchReviews`. -/
def fetchLoop (lastPollAt : Option Int) (now : Int) (maxResults : Nat) :
    List (List PlayRawReview) → List ParsedPlayStoreReview →
    List ParsedPlayStoreReview
  | [], acc => acc
  | page :: rest, acc =>
    let step := processPage lastPollAt now page acc
    if step.2 then step.1
    else if rest ≠ [] ∧ step.1.length < maxResults then
      fetchLoop lastPollAt now maxResults rest step.1
    else step.1

/-- Model of `PlayStoreClient.fetchReviews` (the final `reviews.slice(0, maxResults)`
included), with the vendor's page stream made explicit. -/
def fetchReviews (pages : List (List PlayRawReview)) (maxResults : Nat)
    (lastPollAt : Option Int) (now : Int) : List ParsedPlayStoreReview :=
  (fetchLoop lastPollAt now maxResults pages []).take maxResults

/-- Model of `PlayStoreClient.fetchUnrespondedReviews`: fetch `maxResults * 2`, keep
the unresponded ones, return at most `maxResults`. -/
def fetchUnrespondedReviews (pages : List (List PlayRawReview))
    (maxResults : Nat) (lastPollAt : Option Int) (now : Int) :
    List ParsedPlayStoreReview :=
  ((fetchReviews pages (maxResults * 2) lastPollAt now).filter
    (fun r => !r.hasResponse)).take maxResults

/-- The scan-continuation predicate of the Play page loop: a raw review
with no user comment is skipped (the scan continues past it); one with a
user comment continues the scan iff its date is strictly newer than the
cursor `c` (the loop stops at the first one dated `<= c`). -/
def keepScanning (c now : Int) (r : PlayRawReview) : Bool :=
  match (r.comments.head?).bind (fun cm => cm.userComment) with
  | none => true
  | some cm => decide (c < reviewDateOf cm now)

/-- What the Play page loop pushes for one scanned raw review: nothing when
it has no user comment, otherwise the parsed record. -/
def parseStep (now : Int) (r : PlayRawReview) : Option ParsedPlayStoreReview :=
  match (r.comments.head?).bind (fun cm => cm.userComment) with
  | none => none
  | some cm => some (parseReview r cm (reviewDateOf cm now))

/-- JS `replyText.slice(0, 350)` performed by `PlayStoreClient.replyToReview`
before sending: the reply body actually posted to the vendor. -/
def replyToReviewSentText (replyText : List Char) : List Char :=
  replyText.take 350

/-- The auth-failure classification of `PlayStoreClient`
(`fetchReviewsWithAccount` / `replyWithAccount` catch blocks). -/
def isAuthErrorMessage (msg : String) : Bool :=
  jsIncludes msg "401" || jsIncludes msg "403" ||
  jsIncludes msg "PERMISSION_DENIED" || jsIncludes msg "UNAUTHENTICATED"

end PlayStoreClient

namespace AppStoreClient

/-- One raw review object served by the App Store Connect API;
`hasResponseData` records whether `relationships.response.data` is non-null,
`createdDate` is the parsed `attributes.createdDate`. -/
structure AppRawReview where
  id : String
  rating : Int
  title : Option String
  body : String
  reviewerNickname : String
  createdDate : Int
  territory : String
  hasResponseData : Bool
deriving DecidableEq, Repr

/-- Record `ParsedAppStoreReview` of `appStoreClient.ts`. -/
structure ParsedAppStoreReview where
  externalId : String
  rating : Int
  title : Option String
  body : String
  reviewerName : String
  reviewDate : Int
  territory : String
  hasResponse : Bool
deriving DecidableEq, Repr

/-- The record pushed by `AppStoreClient.fetchUnrespondedReviews`:
`hasResponse` is literally `false` in the source. -/
def parseUnresponded (r : AppRawReview) : ParsedAppStoreReview :=
  { externalId := r.id
    rating := r.rating
    title := r.title
    body := r.body
    reviewerName := r.reviewerNickname
    reviewDate := r.createdDate
    territory := r.territory
    hasResponse := false }

/-- The initial URL requested by `AppStoreClient.fetchUnrespondedReviews`. -/
def unrespondedReviewsUrl (appId : String) : String :=
  "/apps/" ++ appId ++
    "/customerReviews?limit=200&sort=-createdDate&exists[publishedResponse]=false"

/-- The inner `for` loop of `AppStoreClient.fetchUnrespondedReviews` over one
page: stops (returning `true`) at the first review whose date is
`<= lastPollAt`, otherwise appends the parsed review. -/
def processPage (lastPollAt : Option Int) :
    List AppRawReview → List ParsedAppStoreReview →
    List ParsedAppStoreReview × Bool
  | [], acc => (acc, false)
  | r :: rest, acc =>
    match lastPollAt with
    | some lp =>
      if r.createdDate ≤ lp then (acc, true)
      else processPage lastPollAt rest (acc ++ [parseUnresponded r])
    | none => processPage lastPollAt rest (acc ++ [parseUnresponded r])

/-- The `while (nextUrl && !reachedOldReviews)` pagination loop of
`AppStoreClient.fetchUnrespondedReviews`; note there is no count cap. -/
def fetchLoop (lastPollAt : Option Int) :
    List (List AppRawReview) → List ParsedAppStoreReview →
    List ParsedAppStoreReview
  | [], acc => acc
  | page :: rest, acc =>
    let step := processPage lastPollAt page acc
    if step.2 then step.1
    else fetchLoop lastPollAt rest step.1

/-- Model of `AppStoreClient.fetchUnrespondedReviews`, with the vendor's page stream
made explicit. -/
def fetchUnrespondedReviews (pages : List (List AppRawReview))
    (lastPollAt : Option Int) : List ParsedAppStoreReview :=
  fetchLoop lastPollAt pages []

/-- The auth-failure classification of `AppStoreClient`
(`fetchReviewsWithAccount` / `postResponseWithAccount` catch blocks). -/
def isAuthErrorMessage (msg : String) : Bool :=
  jsIncludes msg "401" || jsIncludes msg "403" ||
  jsIncludes msg "FORBIDDEN" || jsIncludes msg "NOT_AUTHORIZED"

end AppStoreClient

/-- Row of the `users` table (the fields the scheduler reads). -/
structure UserRow where
  id : String
  telegram_id : Int
  is_active : Bool
deriving DecidableEq, Repr

/-- The `AppWithAccount` record the scheduler works with: a row of the `apps`
table joined with its owning account. `last_poll_at` is the Resource cursor. -/
structure AppRow where
  id : String
  user_id : String
  account : Option AccountRow
  name : String
  store : StoreKind
  store_id : String
  is_active : Bool
  last_poll_at : Option Int
deriving DecidableEq, Repr

/-- The review status lifecycle of the `reviews` table. -/
inductive ReviewStatus where
  | pending
  | notified
  | approved
  | responded
  | rejected
  | failed
deriving DecidableEq, Repr

/-- Row of the `reviews` table as inserted by the scheduler (the generated
primary key is omitted; the dedup key is `(store, external_review_id)`). -/
structure ReviewRow where
  app_id : String
  user_id : String
  store : StoreKind
  external_review_id : String
  rating : Int
  title : Option String
  body : String
  reviewer_name : String
  review_date : Int
  territory : Option String
  app_version : Option String
  status : ReviewStatus
deriving DecidableEq, Repr

namespace SupabaseService

/-- Model of `SupabaseService.getReviewByExternalId`: select the review matching
`(store, external_review_id)`. -/
def getReviewByExternalId (reviews : List ReviewRow) (store : StoreKind)
    (externalId : String) : Option ReviewRow :=
  reviews.find? (fun r =>
    decide (r.store = store) && decide (r.external_review_id = externalId))

/-- Model of `SupabaseService.createReview`: insert the row; a unique-key violation on
`(store, external_review_id)` (Postgres error `23505`) is returned as `none`
with the table unchanged, any other behaviour returns the inserted row. -/
def createReview (reviews : List ReviewRow) (row : ReviewRow) :
    Option ReviewRow × List ReviewRow :=
  if reviews.any (fun r =>
      decide (r.store = row.store) &&
      decide (r.external_review_id = row.external_review_id)) then
    (none, reviews)
  else
    (some row, reviews ++ [row])

/-- Model of `SupabaseService.updateAppLastPoll`: set `last_poll_at` of the rows with
the given id to the current time. -/
def updateAppLastPoll (apps : List AppRow) (appId : String) (now : Int) :
    List AppRow :=
  apps.map (fun a =>
    if a.id = appId then { a with last_poll_at := some now } else a)

/-- The `invalidate_account` stored procedure called by
`SupabaseService.invalidateAccount`: mark the account invalid and persist the
raw error text. -/
def invalidateAccount (accounts : List AccountRow) (accountId : String)
    (errorMessage : String) : List AccountRow :=
  accounts.map (fun a =>
    if a.id = accountId then
      { a with is_valid := false, validation_error := some errorMessage }
    else a)

/-- Model of `SupabaseService.getUserById`. -/
def getUserById (users : List UserRow) (id : String) : Option UserRow :=
  users.find? (fun u => decide (u.id = id))

/-- Model of `SupabaseService.getAllActiveAppsWithAccounts`: active apps whose joined
account exists and is valid. -/
def getAllActiveAppsWithAccounts (apps : List AppRow) : List AppRow :=
  (apps.filter (fun a => a.is_active)).filter
    (fun a => ((a.account).map (fun acc => acc.is_valid)).getD false)

end SupabaseService

namespace PlayStoreClient

/-- JS `!account.apple_key_id` style presence test (empty string is falsy). -/
def strPresent (x : Option String) : Bool :=
  match x with
  | none => false
  | some s => decide (s ≠ "")

/-- Model of `PlayStoreClient.fetchReviewsWithAccount`. The inner network fetch is
abstracted as its outcome `fetchOutcome` (the reviews returned, or the thrown
error message); the accounts table is threaded to model the
`invalidateAccount` side effect. -/
def fetchReviewsWithAccount (account : AccountRow)
    (fetchOutcome : Except String (List ParsedPlayStoreReview))
    (accounts : List AccountRow) :
    Except String (List ParsedPlayStoreReview) × List AccountRow :=
  if account.is_valid = false then
    (.error "Account credentials are invalid. Please re-upload your service account JSON file.",
     accounts)
  else
    match fetchOutcome with
    | .ok reviews => (.ok reviews, accounts)
    | .error msg =>
      if isAuthErrorMessage msg then
        (.error ("Credentials are invalid: " ++ msg ++
           ". Please re-upload your service account JSON file."),
         SupabaseService.invalidateAccount accounts account.id msg)
      else
        (.error msg, accounts)

end PlayStoreClient

namespace AppStoreClient

/-- Model of `AppStoreClient.fetchReviewsWithAccount`. The inner network fetch is
abstracted as its outcome `fetchOutcome`; the accounts table is threaded to
model the `invalidateAccount` side effect. -/
def fetchReviewsWithAccount (account : AccountRow)
    (fetchOutcome : Except String (List ParsedAppStoreReview))
    (accounts : List AccountRow) :
    Except String (List ParsedAppStoreReview) × List AccountRow :=
  if account.is_valid = false then
    (.error "Account credentials are invalid. Please re-upload your .p8 file.", accounts)
  else if !PlayStoreClient.strPresent account.apple_key_id ||
          !PlayStoreClient.strPresent account.apple_issuer_id then
    (.error "Missing Apple Key ID or Issuer ID", accounts)
  else
    match fetchOutcome with
    | .ok reviews => (.ok reviews, accounts)
    | .error msg =>
      if isAuthErrorMessage msg then
        (.error ("Credentials are invalid: " ++ msg ++ ". Please re-upload your .p8 file."),
         SupabaseService.invalidateAccount accounts account.id msg)
      else
        (.error msg, accounts)

end AppStoreClient

namespace ReviewScheduler

/-- The scheduler's `ParsedReview` union type
(`ParsedAppStoreReview | ParsedPlayStoreReview`). -/
inductive ParsedReview where
  | appStore (r : AppStoreClient.ParsedAppStoreReview)
  | playStore (r : PlayStoreClient.ParsedPlayStoreReview)
deriving DecidableEq, Repr

/-- Field `review.externalId` on the union. -/
def ParsedReview.externalId : ParsedReview → String
  | .appStore r => r.externalId
  | .playStore r => r.externalId

/-- Field `review.rating` on the union. -/
def ParsedReview.rating : ParsedReview → Int
  | .appStore r => r.rating
  | .playStore r => r.rating

/-- Field `review.title` on the union. -/
def ParsedReview.title : ParsedReview → Option String
  | .appStore r => r.title
  | .playStore r => r.title

/-- Field `review.body` on the union. -/
def ParsedReview.body : ParsedReview → String
  | .appStore r => r.body
  | .playStore r => r.body

/-- Field `review.reviewerName` on the union. -/
def ParsedReview.reviewerName : ParsedReview → String
  | .appStore r => r.reviewerName
  | .playStore r => r.reviewerName

/-- Field `review.reviewDate` on the union. -/
def ParsedReview.reviewDate : ParsedReview → Int
  | .appStore r => r.reviewDate
  | .playStore r => r.reviewDate

/-- JS `'territory' in review ? review.territory : ('language' in review ?
review.language : null)` in `ReviewScheduler.saveReview`. -/
def ParsedReview.territoryOf : ParsedReview → Option String
  | .appStore r => some r.territory
  | .playStore r => some r.language

/-- JS `'appVersionName' in review ? review.appVersionName : null` in
`ReviewScheduler.saveReview`. -/
def ParsedReview.appVersionOf : ParsedReview → Option String
  | .appStore _ => none
  | .playStore r => r.appVersionName

/-- The persisted shared state the scheduler touches. -/
structure World where
  apps : List AppRow
  users : List UserRow
  reviews : List ReviewRow
deriving DecidableEq, Repr

/-- A Telegram notification pushed by the scheduler. -/
inductive Notif where
  | summary (telegramId : Int) (newReviewCount : Nat)
  | credentialError (telegramId : Int) (appName : String) (errorMessage : String)
deriving DecidableEq, Repr

/-- Whether a notification is the per-owner summary. -/
def Notif.isSummary : Notif → Bool
  | .summary _ _ => true
  | .credentialError _ _ _ => false

/-- The outward effects of a scheduler run: ids of apps whose reviews were
fetched from the vendor, ids of apps whose cursor was advanced, and the
notifications sent. -/
structure Effects where
  fetches : List String
  cursorUpdates : List String
  notifs : List Notif
deriving DecidableEq, Repr

instance : Append Effects :=
  ⟨fun e₁ e₂ =>
    { fetches := e₁.fetches ++ e₂.fetches
      cursorUpdates := e₁.cursorUpdates ++ e₂.cursorUpdates
      notifs := e₁.notifs ++ e₂.notifs }⟩

/-- The run with no outward effect. -/
def noEffects : Effects := { fetches := [], cursorUpdates := [], notifs := [] }

/-- The deterministic outcome of the two connectors' account-based fetches
for this cycle, as a function of the account, the store id and the cursor
passed (models the network). -/
structure FetchEnv where
  appStoreResult : AccountRow → String → Option Int →
    Except String (List AppStoreClient.ParsedAppStoreReview)
  playStoreResult : AccountRow → String → Option Int →
    Except String (List PlayStoreClient.ParsedPlayStoreReview)

/-- The review record `ReviewScheduler.saveReview` builds for insertion. -/
def reviewRowFor (review : ParsedReview) (app : AppRow) (user : UserRow) :
    ReviewRow :=
  { app_id := app.id
    user_id := user.id
    store := app.store
    external_review_id := review.externalId
    rating := review.rating
    title := review.title
    body := review.body
    reviewer_name := review.reviewerName
    review_date := review.reviewDate
    territory := review.territoryOf
    app_version := review.appVersionOf
    status := .pending }

/-- Model of `ReviewScheduler.saveReview`: dedup-check by `(store, externalId)`, then
insert via `SupabaseService.createReview`; a duplicate (pre-existing row or
unique-key violation) yields `false` ("not new"). Returns whether the review
was new, and the updated reviews table. -/
def saveReview (reviews : List ReviewRow) (review : ParsedReview)
    (app : AppRow) (user : UserRow) : Bool × List ReviewRow :=
  match SupabaseService.getReviewByExternalId reviews app.store review.externalId with
  | some _ => (false, reviews)
  | none =>
    match SupabaseService.createReview reviews (reviewRowFor review app user) with
    | (none, reviews') => (false, reviews')
    | (some _, reviews') => (true, reviews')

/-- The `for (const review of reviews)` loop of
`ReviewScheduler.pollAppReviews`: save each fetched review, counting the new
ones. -/
def saveFetchedReviews (reviews : List ReviewRow) (fetched : List ParsedReview)
    (app : AppRow) (user : UserRow) : Nat × List ReviewRow :=
  match fetched with
  | [] => (0, reviews)
  | review :: rest =>
    let step := saveReview reviews review app user
    let next := saveFetchedReviews step.2 rest app user
    ((if step.1 then 1 else 0) + next.1, next.2)

/-- The connector dispatch of `ReviewScheduler.pollAppReviews`: branch on
`app.store` and call that store's account-based fetch with the app's cursor,
normalizing the result into the scheduler's union type. -/
def fetchOutcomeFor (env : FetchEnv) (account : AccountRow) (app : AppRow) :
    Except String (List ParsedReview) :=
  match app.store with
  | .app_store =>
    (env.appStoreResult account app.store_id app.last_poll_at).map
      (fun rs => rs.map ParsedReview.appStore)
  | .play_store =>
    (env.playStoreResult account app.store_id app.last_poll_at).map
      (fun rs => rs.map ParsedReview.playStore)

/-- Model of `ReviewScheduler.pollAppReviews`: skip if the account is missing or
invalid; otherwise fetch via the store's connector, save the returned
reviews, notify on credential-looking error text, and in every non-skipped
case advance the cursor via `SupabaseService.updateAppLastPoll`. Returns the
new-review count, the updated world and the effects. -/
def pollAppReviews (env : FetchEnv) (now : Int) (w : World) (app : AppRow)
    (user : UserRow) : Nat × World × Effects :=
  match app.account with
  | none => (0, w, noEffects)
  | some account =>
    if account.is_valid = false then (0, w, noEffects)
    else
      match fetchOutcomeFor env account app with
      | .ok fetched =>
        ((saveFetchedReviews w.reviews fetched app user).1,
         { w with reviews := (saveFetchedReviews w.reviews fetched app user).2,
                  apps := SupabaseService.updateAppLastPoll w.apps app.id now },
         { fetches := [app.id], cursorUpdates := [app.id], notifs := [] })
      | .error msg =>
        (0,
         { w with apps := SupabaseService.updateAppLastPoll w.apps app.id now },
         { fetches := [app.id], cursorUpdates := [app.id],
           notifs :=
             if jsIncludes msg "invalid" || jsIncludes msg "Credentials" then
               [Notif.credentialError user.telegram_id app.name msg]
             else [] })

/-- The `for (const app of userAppList)` loop of
`ReviewScheduler.pollAllApps`: poll the owner's apps sequentially, summing
the new-review counts. -/
def pollOwnerApps (env : FetchEnv) (now : Int) (w : World) (user : UserRow) :
    List AppRow → World × Nat × Effects
  | [] => (w, 0, noEffects)
  | app :: rest =>
    let step := pollAppReviews env now w app user
    let next := pollOwnerApps env now step.2.1 user rest
    (next.1, step.1 + next.2.1, step.2.2 ++ next.2.2)

/-- One iteration of the per-owner loop of `ReviewScheduler.pollAllApps`:
process the owner's apps, then send exactly one summary notification if the
aggregated count is nonzero. -/
def processOwner (env : FetchEnv) (now : Int) (w : World) (user : UserRow)
    (apps : List AppRow) : World × Effects :=
  let step := pollOwnerApps env now w user apps
  (step.1,
   step.2.2 ++
     { fetches := []
       cursorUpdates := []
       notifs :=
         if 0 < step.2.1 then [Notif.summary user.telegram_id step.2.1] else [] })

/-- Insert an app into its owner's group of the insertion-ordered `userApps`
map of `ReviewScheduler.pollAllApps`. -/
def insertGroup (groups : List (UserRow × List AppRow)) (u : UserRow)
    (a : AppRow) : List (UserRow × List AppRow) :=
  match groups with
  | [] => [(u, [a])]
  | (v, apps) :: rest =>
    if v.id = u.id then (v, apps ++ [a]) :: rest
    else (v, apps) :: insertGroup rest u a

/-- The grouping loop of `ReviewScheduler.pollAllApps`: group the active apps
by owning user, skipping apps whose owner is missing or inactive. -/
def groupByUser (users : List UserRow) :
    List AppRow → List (UserRow × List AppRow) → List (UserRow × List AppRow)
  | [], groups => groups
  | app :: rest, groups =>
    match SupabaseService.getUserById users app.user_id with
    | none => groupByUser users rest groups
    | some u =>
      if u.is_active = false then groupByUser users rest groups
      else groupByUser users rest (insertGroup groups u app)

/-- The per-owner loop of `ReviewScheduler.pollAllApps` over all groups. -/
def processOwners (env : FetchEnv) (now : Int) :
    World → List (UserRow × List AppRow) → World × Effects
  | w, [] => (w, noEffects)
  | w, (user, apps) :: rest =>
    let step := processOwner env now w user apps
    let next := processOwners env now step.1 rest
    (next.1, step.2 ++ next.2)

/-- The scheduler's in-memory state: the single `isPolling` cycle guard and
the persisted world it acts on. -/
structure SchedState where
  isPolling : Bool
  world : World
deriving DecidableEq, Repr

/-- Model of `ReviewScheduler.pollAllApps`: a no-op when a cycle is already in
progress (`isPolling`); otherwise load the active apps with valid accounts,
group them by owner, and process each owner; the guard is released in the
`finally` block, so the final state has `isPolling = false`. -/
def pollAllApps (env : FetchEnv) (now : Int) (s : SchedState) :
    SchedState × Effects :=
  if s.isPolling then (s, noEffects)
  else
    let active := SupabaseService.getAllActiveAppsWithAccounts s.world.apps
    let groups := groupByUser s.world.users active []
    let run := processOwners env now s.world groups
    ({ isPolling := false, world := run.1 }, run.2)

end ReviewScheduler

namespace RateLimiter

/-- The per-key window state (`RateLimitState` of `rateLimiter.ts`). -/
structure RateLimitState where
  count : Int
  resetAt : Int
deriving DecidableEq, Repr

/-- The result of a consumption attempt (`RateLimitResult`). -/
structure RateLimitResult where
  allowed : Bool
  remaining : Int
  resetAt : Int
deriving DecidableEq, Repr

/-- The `buckets` map of the limiter. -/
def Buckets : Type := String → Option RateLimitState

/-- The empty `buckets` map a fresh limiter starts with. -/
def emptyBuckets : Buckets := fun _ => none

/-- JS `buckets.set(key, st)`. -/
def setBucket (b : Buckets) (key : String) (st : RateLimitState) : Buckets :=
  fun k => if k = key then some st else b k

/-- The limiter's configuration; the constructor clamps the limit with
`Math.max(0, limit)`. -/
structure Limiter where
  limit : Int
  windowMs : Int
deriving DecidableEq, Repr

/-- The `RateLimiter` constructor. -/
def Limiter.create (limit windowMs : Int) : Limiter :=
  { limit := max 0 limit, windowMs := windowMs }

/-- Model of `RateLimiter.tryConsume`, with `Date.now()` passed in as `now`: open a
new window on first use or once `now >= resetAt`; otherwise increment and
allow iff the new count stays within the limit, storing the increment only
when allowed. -/
def tryConsume (rl : Limiter) (b : Buckets) (key : String) (now : Int) :
    RateLimitResult × Buckets :=
  match b key with
  | none =>
    let resetAt := now + rl.windowMs
    ({ allowed := decide (0 < rl.limit), remaining := max (rl.limit - 1) 0,
       resetAt := resetAt },
     setBucket b key { count := 1, resetAt := resetAt })
  | some existing =>
    if existing.resetAt ≤ now then
      let resetAt := now + rl.windowMs
      ({ allowed := decide (0 < rl.limit), remaining := max (rl.limit - 1) 0,
         resetAt := resetAt },
       setBucket b key { count := 1, resetAt := resetAt })
    else
      let nextCount := existing.count + 1
      let allowed := decide (nextCount ≤ rl.limit)
      let remaining := if allowed then rl.limit - nextCount else 0
      ({ allowed := allowed, remaining := remaining, resetAt := existing.resetAt },
       if allowed then
         setBucket b key { count := nextCount, resetAt := existing.resetAt }
       else b)

end RateLimiter

namespace LLMService

/-- The length-enforcement tail of `LLMService.generateReviewResponse`,
applied to the trimmed text returned by the model. The source compares the
boundary indexes against `maxLength * 0.7` and `maxLength * 0.8` in floating
point; the embedding uses the exact rational comparisons
`10 * i > 7 * maxLength` and `10 * i > 8 * maxLength`, which agree with the
source away from the (never-exercised here) one-unit rounding boundary.
Requires `maxLength ≥ 3` (it is 350 or 5000 in the source) so that JS
`slice(0, maxLength - 3)` is a plain prefix. -/
def generateResponseTruncation (generatedText : List Char) (maxLength : Nat) :
    List Char :=
  if maxLength < generatedText.length then
    let truncated := generatedText.take (maxLength - 3)
    let lastPeriod := jsLastIndexOf truncated '.'
    let lastSpace := jsLastIndexOf truncated ' '
    if 7 * (maxLength : Int) < 10 * lastPeriod then
      truncated.take (lastPeriod + 1).toNat
    else if 8 * (maxLength : Int) < 10 * lastSpace then
      truncated.take lastSpace.toNat ++ "...".toList
    else
      truncated ++ "...".toList
  else generatedText

end LLMService

section Fixtures

/-! Concrete sample data used to evaluate the definitions on closed inputs. -/

/-- A Play Store user comment dated 1 second after the epoch. -/
def cmNewW : PlayStoreClient.PlayUserComment :=
  { lastModifiedSeconds := some 1, starRating := some 5, text := some "Great",
    reviewerLanguage := some "en", androidOsVersion := none,
    appVersionCode := none, appVersionName := none, device := none }

/-- A Play Store user comment dated at the epoch. -/
def cmOldW : PlayStoreClient.PlayUserComment :=
  { lastModifiedSeconds := some 0, starRating := some 1, text := some "Bad",
    reviewerLanguage := some "en", androidOsVersion := none,
    appVersionCode := none, appVersionName := none, device := none }

/-- A raw Play Store review newer than the sample cursor. -/
def rawNewW : PlayStoreClient.PlayRawReview :=
  { reviewId := some "r-new", authorName := some "Alice",
    comments := [{ userComment := some cmNewW, developerComment := false }] }

/-- A raw Play Store review older than the sample cursor. -/
def rawOldW : PlayStoreClient.PlayRawReview :=
  { reviewId := some "r-old", authorName := some "Bob",
    comments := [{ userComment := some cmOldW, developerComment := false }] }

/-- A one-page Play Store feed: one new review, then one old review. -/
def pagesPW : List (List PlayStoreClient.PlayRawReview) := [[rawNewW, rawOldW]]

/-- The parsed form of `rawNewW`. -/
def rNewW : PlayStoreClient.ParsedPlayStoreReview :=
  { externalId := "r-new", rating := 5, title := none, body := "Great",
    reviewerName := "Alice", reviewDate := 1000, language := "en",
    hasResponse := false, androidOsVersion := none, appVersionCode := none,
    appVersionName := none, device := none }

/-- A raw App Store review newer than the sample cursor. -/
def appRawNewW : AppStoreClient.AppRawReview :=
  { id := "a-new", rating := 4, title := none, body := "Nice",
    reviewerNickname := "Carol", createdDate := 1000, territory := "USA",
    hasResponseData := false }

/-- A raw App Store review older than the sample cursor. -/
def appRawOldW : AppStoreClient.AppRawReview :=
  { id := "a-old", rating := 2, title := none, body := "Meh",
    reviewerNickname := "Dave", createdDate := 0, territory := "USA",
    hasResponseData := false }

/-- A one-page App Store feed: one new review, then one old review. -/
def pagesAW : List (List AppStoreClient.AppRawReview) := [[appRawNewW, appRawOldW]]

/-- A valid account with both Apple identifiers present. -/
def acctW : AccountRow :=
  { id := "acc1", is_valid := true, validation_error := none,
    credential_data := "cred-json", apple_key_id := some "KEY",
    apple_issuer_id := some "ISS" }

/-- An active owner with Telegram id 42. -/
def userW : UserRow := { id := "u1", telegram_id := 42, is_active := true }

/-- First monitored App Store app of `userW`, never polled. -/
def a1W : AppRow :=
  { id := "app1", user_id := "u1", account := some acctW, name := "One",
    store := .app_store, store_id := "s1", is_active := true,
    last_poll_at := none }

/-- Second monitored App Store app of `userW`, never polled. -/
def a2W : AppRow :=
  { id := "app2", user_id := "u1", account := some acctW, name := "Two",
    store := .app_store, store_id := "s2", is_active := true,
    last_poll_at := none }

/-- Third monitored App Store app of `userW`, never polled. -/
def a3W : AppRow :=
  { id := "app3", user_id := "u1", account := some acctW, name := "Three",
    store := .app_store, store_id := "s3", is_active := true,
    last_poll_at := none }

/-- A parsed App Store review with the given external id. -/
def mkParsedA (eid : String) : AppStoreClient.ParsedAppStoreReview :=
  { externalId := eid, rating := 5, title := none, body := "b",
    reviewerName := "n", reviewDate := 500, territory := "USA",
    hasResponse := false }

/-- A fetch environment where app `s1` yields 2 reviews, `s2` yields 0 and
`s3` yields 5. -/
def envW : ReviewScheduler.FetchEnv :=
  { appStoreResult := fun _ storeId _ =>
      if storeId = "s1" then .ok [mkParsedA "e1", mkParsedA "e2"]
      else if storeId = "s2" then .ok []
      else if storeId = "s3" then
        .ok [mkParsedA "e3", mkParsedA "e4", mkParsedA "e5", mkParsedA "e6",
             mkParsedA "e7"]
      else .ok []
    playStoreResult := fun _ _ _ => .ok [] }

/-- The sample world: `userW` owning the three apps, no stored reviews. -/
def wW : ReviewScheduler.World :=
  { apps := [a1W, a2W, a3W], users := [userW], reviews := [] }

/-- A 400-character reply draft: 299 `a`s, a period (sentence boundary at
position 300), then 100 `b`s. -/
def sample400 : List Char :=
  List.replicate 299 'a' ++ '.' :: List.replicate 100 'b'

/-- A bucket map whose window for key `k` is full (count 3) until time 1000. -/
def bInW : RateLimiter.Buckets :=
  RateLimiter.setBucket RateLimiter.emptyBuckets "k" { count := 3, resetAt := 1000 }

end Fixtures

/-- Order on cursors: `none` (never polled) precedes everything; a missing
new cursor never counts as an advance of a present old one. -/
def cursorLe : Option Int → Option Int → Prop
  | none, _ => True
  | some a, some b => a ≤ b
  | some _, none => False

theorem cursorLe_refl (o : Option Int) : cursorLe o o := by
  cases o with
  | none => trivial
  | some a => exact le_refl a

namespace PlayStoreClient

theorem processPage_mem_some (c now : Int) :
    ∀ (raws : List PlayRawReview) (acc : List ParsedPlayStoreReview)
      (r : ParsedPlayStoreReview),
      r ∈ (processPage (some c) now raws acc).1 → r ∈ acc ∨ c < r.reviewDate := by
  intro raws
  induction raws with
  | nil =>
    intro acc r h
    exact Or.inl (by simpa [processPage] using h)
  | cons r0 rest ih =>
    intro acc r h
    simp only [processPage] at h
    split at h
    · exact ih _ _ h
    · next cm hcm =>
      split at h
      · next hle => exact Or.inl h
      · next hle =>
        rcases ih _ _ h with h' | h'
        · rcases List.mem_append.mp h' with h'' | h''
          · exact Or.inl h''
          · right
            have hr : r = parseReview r0 cm (reviewDateOf cm now) := by
              simpa using h''
            subst hr
            simp only [parseReview]
            omega
        · exact Or.inr h'

theorem fetchLoop_mem_some (c now : Int) (maxResults : Nat) :
    ∀ (pages : List (List PlayRawReview)) (acc : List ParsedPlayStoreReview)
      (r : ParsedPlayStoreReview),
      r ∈ fetchLoop (some c) now maxResults pages acc →
        r ∈ acc ∨ c < r.reviewDate := by
  intro pages
  induction pages with
  | nil =>
    intro acc r h
    exact Or.inl (by simpa [fetchLoop] using h)
  | cons page rest ih =>
    intro acc r h
    simp only [fetchLoop] at h
    split at h
    · exact processPage_mem_some c now page acc r h
    · split at h
      · rcases ih _ r h with h' | h'
        · exact processPage_mem_some c now page acc r h'
        · exact Or.inr h'
      · exact processPage_mem_some c now page acc r h

theorem fetchUnrespondedReviews_mem_some (c now : Int) (maxResults : Nat)
    (pages : List (List PlayRawReview)) (r : ParsedPlayStoreReview)
    (h : r ∈ fetchUnrespondedReviews pages maxResults (some c) now) :
    c < r.reviewDate := by
  have h1 : r ∈ (fetchReviews pages (maxResults * 2) (some c) now).filter
      (fun r => !r.hasResponse) := List.take_subset _ _ h
  have h2 : r ∈ fetchReviews pages (maxResults * 2) (some c) now :=
    (List.mem_filter.mp h1).1
  have h3 : r ∈ fetchLoop (some c) now (maxResults * 2) pages [] :=
    List.take_subset _ _ h2
  rcases fetchLoop_mem_some c now (maxResults * 2) pages [] r h3 with h' | h'
  · simp at h'
  · exact h'

end PlayStoreClient

namespace AppStoreClient

theorem processPageMemNewer (c : Int) :
    ∀ (raws : List AppRawReview) (acc : List ParsedAppStoreReview)
      (r : ParsedAppStoreReview),
      r ∈ (processPage (some c) raws acc).1 → r ∈ acc ∨ c < r.reviewDate := by
  intro raws
  induction raws with
  | nil =>
    intro acc r h
    exact Or.inl (by simpa [processPage] using h)
  | cons r0 rest ih =>
    intro acc r h
    simp only [processPage] at h
    split at h
    · next hle => exact Or.inl h
    · next hle =>
      rcases ih _ r h with h' | h'
      · rcases List.mem_append.mp h' with h'' | h''
        · exact Or.inl h''
        · right
          have hr : r = parseUnresponded r0 := by simpa using h''
          subst hr
          simp only [parseUnresponded]
          omega
      · exact Or.inr h'

theorem fetchLoopMemNewer (c : Int) :
    ∀ (pages : List (List AppRawReview)) (acc : List ParsedAppStoreReview)
      (r : ParsedAppStoreReview),
      r ∈ fetchLoop (some c) pages acc → r ∈ acc ∨ c < r.reviewDate := by
  intro pages
  induction pages with
  | nil =>
    intro acc r h
    exact Or.inl (by simpa [fetchLoop] using h)
  | cons page rest ih =>
    intro acc r h
    simp only [fetchLoop] at h
    split at h
    · exact processPageMemNewer c page acc r h
    · rcases ih _ r h with h' | h'
      · exact processPageMemNewer c page acc r h'
      · exact Or.inr h'

end AppStoreClient

/-- The list of characters of a concatenation splits. -/
theorem toListAppendEq (a b : String) : (a ++ b).toList = a.toList ++ b.toList := by
  cases a
  cases b
  rfl

/-- A pattern occurring in `m` occurs in `l ++ m`. -/
theorem hasSubSeq_append_right (pat l m : List Char) (h : hasSubSeq pat m = true) :
    hasSubSeq pat (l ++ m) = true := by
  induction l with
  | nil => simpa using h
  | cons x xs ih => simp [hasSubSeq, ih]

/-- A list that wholly satisfies `p` passes `takeWhile` through itself. -/
theorem takeWhileOfAll {α : Type} (p : α → Bool) :
    ∀ l : List α, l.all p = true → l.takeWhile p = l := by
  intro l
  induction l with
  | nil => intro _; rfl
  | cons a l ih =>
    intro h
    rw [List.all_cons, Bool.and_eq_true] at h
    rw [List.takeWhile_cons, if_pos h.1, ih h.2]

/-- Lemma: `takeWhile` runs past a first block that wholly satisfies `p`. -/
theorem takeWhileAppendOfAll {α : Type} (p : α → Bool) :
    ∀ l₁ l₂ : List α, l₁.all p = true →
      (l₁ ++ l₂).takeWhile p = l₁ ++ l₂.takeWhile p := by
  intro l₁
  induction l₁ with
  | nil => intro l₂ _; rfl
  | cons a l ih =>
    intro l₂ h
    rw [List.all_cons, Bool.and_eq_true] at h
    rw [List.cons_append, List.takeWhile_cons, if_pos h.1, ih l₂ h.2]
    rfl

/-- Lemma: `takeWhile` stops inside a first block that fails `p` somewhere. -/
theorem takeWhileAppendOfStop {α : Type} (p : α → Bool) :
    ∀ l₁ l₂ : List α, l₁.all p = false →
      (l₁ ++ l₂).takeWhile p = l₁.takeWhile p := by
  intro l₁
  induction l₁ with
  | nil => intro l₂ h; simp at h
  | cons a l ih =>
    intro l₂ h
    rw [List.all_cons] at h
    rw [List.cons_append, List.takeWhile_cons, List.takeWhile_cons]
    cases hpa : p a with
    | true =>
      rw [hpa, Bool.true_and] at h
      simp only [if_pos rfl]
      rw [ih l₂ h]
    | false => simp

/-- The App Store page loop keeps exactly the prefix of served reviews
strictly newer than the cursor, and reports whether it hit an older one. -/
theorem appstore_processPage_takeWhile (c : Int) :
    ∀ (raws : List AppStoreClient.AppRawReview)
      (acc : List AppStoreClient.ParsedAppStoreReview),
      AppStoreClient.processPage (some c) raws acc =
        (acc ++ (raws.takeWhile (fun r => decide (c < r.createdDate))).map
            AppStoreClient.parseUnresponded,
         !raws.all (fun r => decide (c < r.createdDate))) := by
  intro raws
  induction raws with
  | nil => intro acc; simp [AppStoreClient.processPage]
  | cons r0 rest ih =>
    intro acc
    simp only [AppStoreClient.processPage]
    by_cases hle : r0.createdDate ≤ c
    · have hp : decide (c < r0.createdDate) = false := by
        simp [not_lt.mpr hle]
      rw [if_pos hle]
      simp [List.takeWhile_cons, List.all_cons, hp]
    · have hp : decide (c < r0.createdDate) = true := by
        simp [not_le.mp hle]
      rw [if_neg hle, ih]
      simp [List.takeWhile_cons, List.all_cons, hp]

/-- The App Store pagination loop with a cursor returns exactly the prefix of
the vendor's whole review stream strictly newer than the cursor. -/
theorem appstore_fetchLoop_takeWhile (c : Int) :
    ∀ (pages : List (List AppStoreClient.AppRawReview))
      (acc : List AppStoreClient.ParsedAppStoreReview),
      AppStoreClient.fetchLoop (some c) pages acc =
        acc ++ ((pages.flatten).takeWhile (fun r => decide (c < r.createdDate))).map
            AppStoreClient.parseUnresponded := by
  intro pages
  induction pages with
  | nil => intro acc; simp [AppStoreClient.fetchLoop]
  | cons page rest ih =>
    intro acc
    simp only [AppStoreClient.fetchLoop, appstore_processPage_takeWhile]
    cases hall : page.all (fun r => decide (c < r.createdDate)) with
    | true =>
      simp only [hall, Bool.not_true, if_neg (by simp : ¬ (false = true))]
      rw [ih, List.flatten_cons,
        takeWhileAppendOfAll _ page rest.flatten hall,
        takeWhileOfAll _ page hall, List.map_append, List.append_assoc]
    | false =>
      simp only [hall, Bool.not_false, if_true]
      rw [List.flatten_cons, takeWhileAppendOfStop _ page rest.flatten hall]

/-- The Play page loop keeps exactly the parses of the comment-bearing
reviews that precede the first comment-bearing review dated `<= cursor`,
and reports whether it hit such an old one. -/
theorem play_processPage_takeWhile (c now : Int) :
    ∀ (raws : List PlayStoreClient.PlayRawReview)
      (acc : List PlayStoreClient.ParsedPlayStoreReview),
      PlayStoreClient.processPage (some c) now raws acc =
        (acc ++ (raws.takeWhile (PlayStoreClient.keepScanning c now)).filterMap
            (PlayStoreClient.parseStep now),
         !raws.all (PlayStoreClient.keepScanning c now)) := by
  intro raws
  induction raws with
  | nil => intro acc; simp [PlayStoreClient.processPage]
  | cons r0 rest ih =>
    intro acc
    simp only [PlayStoreClient.processPage]
    split
    · next hc =>
      have hk : PlayStoreClient.keepScanning c now r0 = true := by
        simp [PlayStoreClient.keepScanning, hc]
      have hp : PlayStoreClient.parseStep now r0 = none := by
        simp [PlayStoreClient.parseStep, hc]
      rw [ih, List.takeWhile_cons, if_pos hk, List.filterMap_cons, hp,
        List.all_cons, hk, Bool.true_and]
    · next cm hc =>
      have hk : PlayStoreClient.keepScanning c now r0 =
          decide (c < PlayStoreClient.reviewDateOf cm now) := by
        simp [PlayStoreClient.keepScanning, hc]
      have hp : PlayStoreClient.parseStep now r0 =
          some (PlayStoreClient.parseReview r0 cm
            (PlayStoreClient.reviewDateOf cm now)) := by
        simp [PlayStoreClient.parseStep, hc]
      by_cases hle : PlayStoreClient.reviewDateOf cm now ≤ c
      · have hk' : PlayStoreClient.keepScanning c now r0 = false := by
          rw [hk]
          simp [not_lt.mpr hle]
        rw [if_pos hle, List.takeWhile_cons, if_neg (by simp [hk']),
          List.all_cons, hk', Bool.false_and]
        simp
      · have hk' : PlayStoreClient.keepScanning c now r0 = true := by
          rw [hk]
          simp [not_le.mp hle]
        rw [if_neg hle, ih, List.takeWhile_cons, if_pos hk',
          List.filterMap_cons, hp, List.all_cons, hk', Bool.true_and,
          List.append_assoc]
        rfl

/-- The Play pagination loop, truncated at the cap, equals the capped prefix
of the vendor's whole stream truncated at the first old comment-bearing
review: no review served after that point is ever returned. -/
theorem play_fetchLoop_takeWhile (c now : Int) (maxResults : Nat) :
    ∀ (pages : List (List PlayStoreClient.PlayRawReview))
      (acc : List PlayStoreClient.ParsedPlayStoreReview),
      (PlayStoreClient.fetchLoop (some c) now maxResults pages acc).take maxResults =
        (acc ++ ((pages.flatten).takeWhile (PlayStoreClient.keepScanning c now)).filterMap
            (PlayStoreClient.parseStep now)).take maxResults := by
  intro pages
  induction pages with
  | nil => intro acc; simp [PlayStoreClient.fetchLoop]
  | cons page rest ih =>
    intro acc
    simp only [PlayStoreClient.fetchLoop, play_processPage_takeWhile]
    cases hall : page.all (PlayStoreClient.keepScanning c now) with
    | false =>
      simp only [hall, Bool.not_false, if_true]
      rw [List.flatten_cons, takeWhileAppendOfStop _ page rest.flatten hall]
    | true =>
      simp only [hall, Bool.not_true, if_neg (by simp : ¬ (false = true))]
      rw [List.flatten_cons, takeWhileAppendOfAll _ page rest.flatten hall,
        takeWhileOfAll _ page hall, List.filterMap_append, ← List.append_assoc]
      by_cases hcont : rest ≠ [] ∧
          (acc ++ page.filterMap (PlayStoreClient.parseStep now)).length < maxResults
      · rw [if_pos hcont, ih]
      · rw [if_neg hcont]
        rcases not_and_or.mp hcont with hrest | hlen
        · have hrest' : rest = [] := not_not.mp hrest
          subst hrest'
          simp
        · have hlen' : maxResults ≤
              (acc ++ page.filterMap (PlayStoreClient.parseStep now)).length :=
            le_of_not_lt hlen
          rw [List.take_append_of_le_length hlen']

/-- C2: with a non-null cursor, both connectors' review fetches return only
reviews whose timestamp is strictly newer than the cursor — in particular a
review whose timestamp equals the cursor is never returned — and both stop
at the first review dated `<= cursor`: the App Store fetch returns exactly
the served prefix preceding it, and the Play Store fetch returns exactly the
parses of the comment-bearing reviews preceding the first old comment-bearing
one, capped at `maxResults`. -/
theorem fetch_cursor_exclusive (c now : Int) (maxResults : Nat)
    (pagesP : List (List PlayStoreClient.PlayRawReview))
    (pagesA : List (List AppStoreClient.AppRawReview)) :
    (∀ r ∈ PlayStoreClient.fetchUnrespondedReviews pagesP maxResults (some c) now,
       c < r.reviewDate) ∧
    (∀ r ∈ AppStoreClient.fetchUnrespondedReviews pagesA (some c),
       c < r.reviewDate) ∧
    AppStoreClient.fetchUnrespondedReviews pagesA (some c) =
      ((pagesA.flatten).takeWhile (fun r => decide (c < r.createdDate))).map
        AppStoreClient.parseUnresponded ∧
    PlayStoreClient.fetchReviews pagesP maxResults (some c) now =
      (((pagesP.flatten).takeWhile (PlayStoreClient.keepScanning c now)).filterMap
          (PlayStoreClient.parseStep now)).take maxResults := by
  refine ⟨?_, ?_, ?_, ?_⟩
  · intro r h
    exact PlayStoreClient.fetchUnrespondedReviews_mem_some c now maxResults pagesP r h
  · intro r h
    rcases AppStoreClient.fetchLoopMemNewer c pagesA [] r h with h' | h'
    · simp at h'
    · exact h'
  · rw [AppStoreClient.fetchUnrespondedReviews, appstore_fetchLoop_takeWhile]
    rfl
  · rw [PlayStoreClient.fetchReviews, play_fetchLoop_takeWhile]
    rfl

/-- Witness for C2: on a concrete one-page feed holding a review dated 1000
and one dated 0, with cursor 5, the returned review is strictly newer than
the cursor. -/
theorem fetch_cursor_exclusive_witness :
    (rNewW ∈ PlayStoreClient.fetchUnrespondedReviews pagesPW 50 (some 5) 2000 ∧
      (5 : Int) < rNewW.reviewDate) ∧
    (AppStoreClient.parseUnresponded appRawNewW ∈
        AppStoreClient.fetchUnrespondedReviews pagesAW (some 5) ∧
      (5 : Int) < (AppStoreClient.parseUnresponded appRawNewW).reviewDate) :=
  ⟨⟨by decide, (fetch_cursor_exclusive 5 2000 50 pagesPW pagesAW).1 rNewW (by decide)⟩,
   ⟨by decide, (fetch_cursor_exclusive 5 2000 50 pagesPW pagesAW).2.1 _ (by decide)⟩⟩

/-- Every review the App Store page loop appends is constructed by
`parseUnresponded`, whose `hasResponse` is literally `false`. -/
theorem appstore_processPage_unresponded (lp : Option Int) :
    ∀ (raws : List AppStoreClient.AppRawReview)
      (acc : List AppStoreClient.ParsedAppStoreReview)
      (r : AppStoreClient.ParsedAppStoreReview),
      r ∈ (AppStoreClient.processPage lp raws acc).1 →
        r ∈ acc ∨ r.hasResponse = false := by
  intro raws
  induction raws with
  | nil =>
    intro acc r h
    exact Or.inl (by simpa [AppStoreClient.processPage] using h)
  | cons r0 rest ih =>
    intro acc r h
    cases lp with
    | none =>
      simp only [AppStoreClient.processPage] at h
      rcases ih _ r h with h' | h'
      · rcases List.mem_append.mp h' with h'' | h''
        · exact Or.inl h''
        · right
          have hr : r = AppStoreClient.parseUnresponded r0 := by simpa using h''
          subst hr
          rfl
      · exact Or.inr h'
    | some c =>
      simp only [AppStoreClient.processPage] at h
      split at h
      · exact Or.inl h
      · rcases ih _ r h with h' | h'
        · rcases List.mem_append.mp h' with h'' | h''
          · exact Or.inl h''
          · right
            have hr : r = AppStoreClient.parseUnresponded r0 := by simpa using h''
            subst hr
            rfl
        · exact Or.inr h'

/-- Every review the App Store pagination loop returns beyond its
accumulator has `hasResponse = false`. -/
theorem appstore_fetchLoop_unresponded (lp : Option Int) :
    ∀ (pages : List (List AppStoreClient.AppRawReview))
      (acc : List AppStoreClient.ParsedAppStoreReview)
      (r : AppStoreClient.ParsedAppStoreReview),
      r ∈ AppStoreClient.fetchLoop lp pages acc → r ∈ acc ∨ r.hasResponse = false := by
  intro pages
  induction pages with
  | nil =>
    intro acc r h
    exact Or.inl (by simpa [AppStoreClient.fetchLoop] using h)
  | cons page rest ih =>
    intro acc r h
    simp only [AppStoreClient.fetchLoop] at h
    split at h
    · exact appstore_processPage_unresponded lp page acc r h
    · rcases ih _ r h with h' | h'
      · exact appstore_processPage_unresponded lp page acc r h'
      · exact Or.inr h'

/-- C10: every review either connector's account-based fetch returns carries
no developer response: the Play Store path filters out reviews with
`hasResponse`, the App Store path requests only reviews without a published
response (the URL carries the filter) and marks everything it returns as
unresponded. -/
theorem ingested_reviews_unresponded
    (pagesP : List (List PlayStoreClient.PlayRawReview))
    (pagesA : List (List AppStoreClient.AppRawReview))
    (maxResults : Nat) (lp : Option Int) (now : Int) (appId : String) :
    (∀ r ∈ PlayStoreClient.fetchUnrespondedReviews pagesP maxResults lp now,
       r.hasResponse = false) ∧
    (∀ r ∈ AppStoreClient.fetchUnrespondedReviews pagesA lp,
       r.hasResponse = false) ∧
    jsIncludes (AppStoreClient.unrespondedReviewsUrl appId)
      "exists[publishedResponse]=false" = true := by
  refine ⟨?_, ?_, ?_⟩
  · intro r h
    have h1 := List.take_subset _ _ h
    have h2 := (List.mem_filter.mp h1).2
    simpa using h2
  · intro r h
    rcases appstore_fetchLoop_unresponded lp pagesA [] r h with h' | h'
    · simp at h'
    · exact h'
  · show hasSubSeq _ _ = true
    rw [AppStoreClient.unrespondedReviewsUrl, toListAppendEq]
    exact hasSubSeq_append_right _ _ _ (by decide)

/-- Witness for C10: concrete feeds and a concrete app id. -/
theorem ingested_reviews_unresponded_witness :
    (rNewW ∈ PlayStoreClient.fetchUnrespondedReviews pagesPW 50 (some 5) 2000 ∧
      rNewW.hasResponse = false) ∧
    (AppStoreClient.parseUnresponded appRawNewW ∈
        AppStoreClient.fetchUnrespondedReviews pagesAW (some 5) ∧
      (AppStoreClient.parseUnresponded appRawNewW).hasResponse = false) ∧
    jsIncludes (AppStoreClient.unrespondedReviewsUrl "123")
      "exists[publishedResponse]=false" = true :=
  ⟨⟨by decide,
    (ingested_reviews_unresponded pagesPW pagesAW 50 (some 5) 2000 "123").1
      rNewW (by decide)⟩,
   ⟨by decide,
    (ingested_reviews_unresponded pagesPW pagesAW 50 (some 5) 2000 "123").2.1
      _ (by decide)⟩,
   (ingested_reviews_unresponded pagesPW pagesAW 50 (some 5) 2000 "123").2.2⟩

/-- With no cursor the App Store page loop appends every served review. -/
theorem appstore_processPage_none :
    ∀ (raws : List AppStoreClient.AppRawReview)
      (acc : List AppStoreClient.ParsedAppStoreReview),
      AppStoreClient.processPage none raws acc =
        (acc ++ raws.map AppStoreClient.parseUnresponded, false) := by
  intro raws
  induction raws with
  | nil => intro acc; simp [AppStoreClient.processPage]
  | cons r0 rest ih =>
    intro acc
    simp [AppStoreClient.processPage, ih]

/-- With no cursor the App Store pagination loop returns every review of
every page the vendor serves. -/
theorem appstore_fetchLoop_none :
    ∀ (pages : List (List AppStoreClient.AppRawReview))
      (acc : List AppStoreClient.ParsedAppStoreReview),
      AppStoreClient.fetchLoop none pages acc =
        acc ++ (pages.flatten).map AppStoreClient.parseUnresponded := by
  intro pages
  induction pages with
  | nil => intro acc; simp [AppStoreClient.fetchLoop]
  | cons page rest ih =>
    intro acc
    simp [AppStoreClient.fetchLoop, appstore_processPage_none, ih]

/-- Counterexample to C7: the App Store connector's first-run fetch
(absent cursor) is not bounded by any fixed cap — for every candidate bound
the vendor can serve a single page exceeding it, and the fetch returns all
of it. -/
theorem appstore_first_run_unbounded :
    ¬ ∃ N : Nat, ∀ pages : List (List AppStoreClient.AppRawReview),
        (AppStoreClient.fetchUnrespondedReviews pages none).length ≤ N := by
  rintro ⟨N, h⟩
  have h1 := h [List.replicate (N + 1) appRawNewW]
  rw [AppStoreClient.fetchUnrespondedReviews, appstore_fetchLoop_none] at h1
  simp at h1

/-- C7 (amended): the Play Store fetch is bounded by its `maxResults` cap
(50 on the account path) with or without a cursor, but the App Store fetch
with an absent cursor has no fixed safety cap: it follows pagination to the
end and returns every review the vendor serves. -/
theorem fetch_first_run_bounds :
    (∀ (pages : List (List PlayStoreClient.PlayRawReview)) (maxResults : Nat)
       (lp : Option Int) (now : Int),
       (PlayStoreClient.fetchUnrespondedReviews pages maxResults lp now).length ≤
         maxResults) ∧
    (∀ pages : List (List AppStoreClient.AppRawReview),
       AppStoreClient.fetchUnrespondedReviews pages none =
         (pages.flatten).map AppStoreClient.parseUnresponded) := by
  constructor
  · intro pages maxResults lp now
    rw [PlayStoreClient.fetchUnrespondedReviews, List.length_take]
    omega
  · intro pages
    rw [AppStoreClient.fetchUnrespondedReviews, appstore_fetchLoop_none]
    simp

/-- C1: triggering `pollAllApps` while a cycle is already in progress
(`isPolling = true`) is a no-op: the state (including every Resource cursor
and the stored reviews) is unchanged and no fetch, cursor update or
notification is performed. -/
theorem pollAllApps_noop_when_polling (env : ReviewScheduler.FetchEnv)
    (now : Int) (w : ReviewScheduler.World) :
    ReviewScheduler.pollAllApps env now { isPolling := true, world := w } =
      ({ isPolling := true, world := w }, ReviewScheduler.noEffects) := by
  simp [ReviewScheduler.pollAllApps]

/-- C3: for an app with a valid account, `pollAppReviews` sets the app's
cursor to the current time whatever the fetch outcome was (success or
error), and — provided stored cursors do not lie in the future — no app's
cursor ever decreases. -/
theorem pollAppReviews_cursor_advance (env : ReviewScheduler.FetchEnv)
    (now : Int) (w : ReviewScheduler.World) (app : AppRow) (user : UserRow)
    (account : AccountRow) (hacct : app.account = some account)
    (hvalid : account.is_valid = true)
    (hpast : ∀ a ∈ w.apps, a.id = app.id → cursorLe a.last_poll_at (some now)) :
    (ReviewScheduler.pollAppReviews env now w app user).2.1.apps =
      SupabaseService.updateAppLastPoll w.apps app.id now ∧
    ∀ a ∈ w.apps,
      cursorLe a.last_poll_at
        ((if a.id = app.id then { a with last_poll_at := some now } else a).last_poll_at) := by
  constructor
  · unfold ReviewScheduler.pollAppReviews
    rw [hacct]
    simp only [hvalid]
    cases ReviewScheduler.fetchOutcomeFor env account app with
    | ok fetched => rfl
    | error msg => rfl
  · intro a ha
    by_cases hid : a.id = app.id
    · simp only [hid, if_pos]
      exact hpast a ha hid
    · simp only [hid, if_neg, not_false_iff]
      exact cursorLe_refl _

/-- Witness for C3: polling the never-polled `a1W` (valid account) at time
1000 sets its cursor and decreases no cursor. -/
theorem pollAppReviews_cursor_advance_witness :
    (ReviewScheduler.pollAppReviews envW 1000 wW a1W userW).2.1.apps =
      SupabaseService.updateAppLastPoll wW.apps a1W.id 1000 ∧
    ∀ a ∈ wW.apps,
      cursorLe a.last_poll_at
        ((if a.id = a1W.id then { a with last_poll_at := some 1000 } else a).last_poll_at) :=
  pollAppReviews_cursor_advance envW 1000 wW a1W userW acctW rfl rfl
    (by intro a ha hid; fin_cases ha <;> exact trivial)

/-- Helper: `pollAppReviews` never emits a summary notification itself (only
credential-error notifications). -/
theorem pollAppReviews_summary_free (env : ReviewScheduler.FetchEnv)
    (now : Int) (w : ReviewScheduler.World) (app : AppRow) (user : UserRow) :
    ((ReviewScheduler.pollAppReviews env now w app user).2.2.notifs).filter
      ReviewScheduler.Notif.isSummary = [] := by
  unfold ReviewScheduler.pollAppReviews
  split
  · rfl
  · rename_i account _
    split
    · rfl
    · cases ReviewScheduler.fetchOutcomeFor env account app with
      | ok fetched => rfl
      | error msg =>
        by_cases hc : (jsIncludes msg "invalid" || jsIncludes msg "Credentials") = true <;>
          simp [hc, ReviewScheduler.Notif.isSummary]

/-- The notifications of appended effects split. -/
theorem effectsAppendNotifs (e₁ e₂ : ReviewScheduler.Effects) :
    (e₁ ++ e₂).notifs = e₁.notifs ++ e₂.notifs := rfl

/-- The per-owner app loop emits no summary notification. -/
theorem pollOwnerApps_summary_free (env : ReviewScheduler.FetchEnv) (now : Int) :
    ∀ (apps : List AppRow) (w : ReviewScheduler.World) (user : UserRow),
      ((ReviewScheduler.pollOwnerApps env now w user apps).2.2.notifs).filter
        ReviewScheduler.Notif.isSummary = [] := by
  intro apps
  induction apps with
  | nil => intro w user; rfl
  | cons app rest ih =>
    intro w user
    unfold ReviewScheduler.pollOwnerApps
    rw [effectsAppendNotifs, List.filter_append, pollAppReviews_summary_free, ih]
    rfl

/-- C5: processing one owner's Resources emits exactly one summary
notification carrying the aggregated count of newly persisted reviews when
that aggregate is nonzero, and none when it is zero — never one per
Resource; concretely, three Resources yielding 2, 0 and 5 new reviews
produce the single summary `7`. -/
theorem owner_summary_aggregation :
    (∀ (env : ReviewScheduler.FetchEnv) (now : Int) (w : ReviewScheduler.World)
       (user : UserRow) (apps : List AppRow),
      ((ReviewScheduler.processOwner env now w user apps).2.notifs).filter
          ReviewScheduler.Notif.isSummary =
        (if 0 < (ReviewScheduler.pollOwnerApps env now w user apps).2.1 then
          [ReviewScheduler.Notif.summary user.telegram_id
            (ReviewScheduler.pollOwnerApps env now w user apps).2.1]
         else [])) ∧
    (ReviewScheduler.processOwner envW 1000 wW userW [a1W, a2W, a3W]).2.notifs =
      [ReviewScheduler.Notif.summary 42 7] := by
  constructor
  · intro env now w user apps
    unfold ReviewScheduler.processOwner
    rw [effectsAppendNotifs, List.filter_append, pollOwnerApps_summary_free]
    split
    · rfl
    · rfl
  · decide

/-- If nothing in `l` satisfies `p` and `x` does, appending `x` makes it the
found element. -/
theorem find?_append_singleton {α : Type} (p : α → Bool) (l : List α) (x : α)
    (hl : l.find? p = none) (hx : p x = true) :
    (l ++ [x]).find? p = some x := by
  induction l with
  | nil => simp [List.find?, hx]
  | cons y ys ih =>
    rw [List.find?_cons] at hl
    rw [List.cons_append, List.find?_cons]
    cases hpy : p y with
    | true => rw [hpy] at hl; simp at hl
    | false => rw [hpy] at hl; exact ih hl

/-- C4: ingesting the same vendor review twice never produces two rows: a
second `saveReview` of the same `(store, externalId)` reports zero new items
and leaves the table unchanged; at most one matching row ever exists; and a
unique-key violation in `createReview` is returned as `none` with the table
unchanged rather than as an error. -/
theorem saveReview_idempotent (db : List ReviewRow)
    (review : ReviewScheduler.ParsedReview) (app : AppRow) (user : UserRow) :
    (ReviewScheduler.saveReview
        (ReviewScheduler.saveReview db review app user).2 review app user =
      (false, (ReviewScheduler.saveReview db review app user).2)) ∧
    ((db.filter (fun r => decide (r.store = app.store) &&
          decide (r.external_review_id = review.externalId))).length ≤ 1 →
      (((ReviewScheduler.saveReview db review app user).2).filter
          (fun r => decide (r.store = app.store) &&
            decide (r.external_review_id = review.externalId))).length ≤ 1) ∧
    (∀ row : ReviewRow,
      db.any (fun r => decide (r.store = row.store) &&
          decide (r.external_review_id = row.external_review_id)) = true →
      SupabaseService.createReview db row = (none, db)) := by
  have main : ∀ (hfindN : SupabaseService.getReviewByExternalId db app.store
        review.externalId = none),
      ReviewScheduler.saveReview db review app user =
        (true, db ++ [ReviewScheduler.reviewRowFor review app user]) := by
    intro hfindN
    have hmem : ∀ x ∈ db, ¬ (decide (x.store = app.store) &&
        decide (x.external_review_id = review.externalId)) = true :=
      List.find?_eq_none.mp hfindN
    have hany : db.any (fun r =>
        decide (r.store = (ReviewScheduler.reviewRowFor review app user).store) &&
        decide (r.external_review_id =
          (ReviewScheduler.reviewRowFor review app user).external_review_id)) = false :=
      List.any_eq_false.mpr hmem
    have hcreate : SupabaseService.createReview db
        (ReviewScheduler.reviewRowFor review app user) =
        (some (ReviewScheduler.reviewRowFor review app user),
         db ++ [ReviewScheduler.reviewRowFor review app user]) := by
      simp only [SupabaseService.createReview, hany]
      rfl
    unfold ReviewScheduler.saveReview
    rw [hfindN, hcreate]
  have hpx : (decide ((ReviewScheduler.reviewRowFor review app user).store = app.store) &&
      decide ((ReviewScheduler.reviewRowFor review app user).external_review_id =
        review.externalId)) = true := by
    simp [ReviewScheduler.reviewRowFor]
  refine ⟨?_, ?_, ?_⟩
  · cases hfind : SupabaseService.getReviewByExternalId db app.store review.externalId with
    | some r0 =>
      have h1 : ReviewScheduler.saveReview db review app user = (false, db) := by
        unfold ReviewScheduler.saveReview
        rw [hfind]
      rw [h1]
      exact h1
    | none =>
      have h1 := main hfind
      have hfind2 : SupabaseService.getReviewByExternalId
          (db ++ [ReviewScheduler.reviewRowFor review app user]) app.store
          review.externalId =
          some (ReviewScheduler.reviewRowFor review app user) :=
        find?_append_singleton _ db _ hfind hpx
      rw [h1]
      show ReviewScheduler.saveReview
          (db ++ [ReviewScheduler.reviewRowFor review app user]) review app user =
        (false, db ++ [ReviewScheduler.reviewRowFor review app user])
      unfold ReviewScheduler.saveReview
      rw [hfind2]
  · intro hcount
    cases hfind : SupabaseService.getReviewByExternalId db app.store review.externalId with
    | some r0 =>
      have h1 : ReviewScheduler.saveReview db review app user = (false, db) := by
        unfold ReviewScheduler.saveReview
        rw [hfind]
      rw [h1]
      exact hcount
    | none =>
      have h1 := main hfind
      have hmem : ∀ x ∈ db, ¬ (decide (x.store = app.store) &&
          decide (x.external_review_id = review.externalId)) = true :=
        List.find?_eq_none.mp hfind
      have hzero : db.filter (fun r => decide (r.store = app.store) &&
          decide (r.external_review_id = review.externalId)) = [] := by
        rw [List.filter_eq_nil_iff]
        exact hmem
      rw [h1]
      show ((db ++ [ReviewScheduler.reviewRowFor review app user]).filter
          (fun r => decide (r.store = app.store) &&
            decide (r.external_review_id = review.externalId))).length ≤ 1
      rw [List.filter_append, hzero, List.filter_cons]
      simp [ReviewScheduler.reviewRowFor]
  · intro row hrow
    simp [SupabaseService.createReview, hrow]

/-- Witness for C4: saving the same parsed review twice into an empty table
leaves one row and reports the second save as not new. -/
theorem saveReview_idempotent_witness :
    (ReviewScheduler.saveReview
        (ReviewScheduler.saveReview []
          (ReviewScheduler.ParsedReview.appStore (mkParsedA "e1")) a1W userW).2
        (ReviewScheduler.ParsedReview.appStore (mkParsedA "e1")) a1W userW =
      (false, (ReviewScheduler.saveReview []
          (ReviewScheduler.ParsedReview.appStore (mkParsedA "e1")) a1W userW).2)) ∧
    (((ReviewScheduler.saveReview []
          (ReviewScheduler.ParsedReview.appStore (mkParsedA "e1")) a1W userW).2).filter
        (fun r => decide (r.store = a1W.store) &&
          decide (r.external_review_id =
            (ReviewScheduler.ParsedReview.appStore (mkParsedA "e1")).externalId))).length ≤ 1 :=
  ⟨(saveReview_idempotent [] (ReviewScheduler.ParsedReview.appStore (mkParsedA "e1"))
      a1W userW).1,
   (saveReview_idempotent [] (ReviewScheduler.ParsedReview.appStore (mkParsedA "e1"))
      a1W userW).2.1 (by decide)⟩

set_option maxRecDepth 100000 in
/-- Counterexample to C6: a 400-character reply with its last sentence
boundary at position 300, posted through the Play Store connector against
the 350-character limit, is hard-cut to 350 characters — it does not end at
the sentence boundary as the claimed connector-side policy requires. -/
theorem connector_hard_cut_counterexample :
    sample400.length = 400 ∧
    jsLastIndexOf sample400 '.' = 299 ∧
    (PlayStoreClient.replyToReviewSentText sample400).length = 350 ∧
    PlayStoreClient.replyToReviewSentText sample400 ≠ sample400.take 300 := by
  refine ⟨?_, ?_, ?_, ?_⟩ <;> decide

set_option maxRecDepth 100000 in
/-- C6 (amended): the sentence/word-boundary truncation policy is applied by
the AI drafting service to the generated draft — the 400-character draft
against the 350 limit with a sentence boundary at position 300 is cut to end
exactly at that boundary — while the Play Store connector, when posting,
hard-cuts the reply at 350 characters with no boundary preference. -/
theorem truncation_policy_location :
    (∀ replyText : List Char,
      PlayStoreClient.replyToReviewSentText replyText = replyText.take 350) ∧
    LLMService.generateResponseTruncation sample400 350 = sample400.take 300 := by
  constructor
  · intro replyText
    rfl
  · decide

/-- C8: `tryConsume` implements the fixed-window reference semantics: a
fresh or expired key opens a window with count 1 and is allowed iff the
limit is positive; within an open window the attempt is allowed iff the
incremented count stays within the limit, and a rejected attempt leaves the
stored state unchanged; with limit 3 and a 1000 ms window, four in-window
consumptions yield true, true, true, false and a consumption after the
window resets the count to 1 and is allowed. -/
theorem tryConsume_fixed_window (rl : RateLimiter.Limiter)
    (b : RateLimiter.Buckets) (key : String) (now : Int) :
    (b key = none →
      (RateLimiter.tryConsume rl b key now).2 key =
          some { count := 1, resetAt := now + rl.windowMs } ∧
      ((RateLimiter.tryConsume rl b key now).1.allowed = true ↔ 0 < rl.limit)) ∧
    (∀ st : RateLimiter.RateLimitState, b key = some st → st.resetAt ≤ now →
      (RateLimiter.tryConsume rl b key now).2 key =
          some { count := 1, resetAt := now + rl.windowMs } ∧
      ((RateLimiter.tryConsume rl b key now).1.allowed = true ↔ 0 < rl.limit)) ∧
    (∀ st : RateLimiter.RateLimitState, b key = some st → now < st.resetAt →
      ((RateLimiter.tryConsume rl b key now).1.allowed = true ↔
        st.count + 1 ≤ rl.limit) ∧
      ((RateLimiter.tryConsume rl b key now).1.allowed = false →
        (RateLimiter.tryConsume rl b key now).2 = b)) ∧
    ((RateLimiter.tryConsume (RateLimiter.Limiter.create 3 1000)
        RateLimiter.emptyBuckets "k" 0).1.allowed = true ∧
     (RateLimiter.tryConsume (RateLimiter.Limiter.create 3 1000)
        (RateLimiter.tryConsume (RateLimiter.Limiter.create 3 1000)
          RateLimiter.emptyBuckets "k" 0).2 "k" 100).1.allowed = true ∧
     (RateLimiter.tryConsume (RateLimiter.Limiter.create 3 1000)
        (RateLimiter.tryConsume (RateLimiter.Limiter.create 3 1000)
          (RateLimiter.tryConsume (RateLimiter.Limiter.create 3 1000)
            RateLimiter.emptyBuckets "k" 0).2 "k" 100).2 "k" 200).1.allowed = true ∧
     (RateLimiter.tryConsume (RateLimiter.Limiter.create 3 1000)
        (RateLimiter.tryConsume (RateLimiter.Limiter.create 3 1000)
          (RateLimiter.tryConsume (RateLimiter.Limiter.create 3 1000)
            (RateLimiter.tryConsume (RateLimiter.Limiter.create 3 1000)
              RateLimiter.emptyBuckets "k" 0).2 "k" 100).2 "k" 200).2 "k" 300).1.allowed
        = false ∧
     (RateLimiter.tryConsume (RateLimiter.Limiter.create 3 1000)
        (RateLimiter.tryConsume (RateLimiter.Limiter.create 3 1000)
          (RateLimiter.tryConsume (RateLimiter.Limiter.create 3 1000)
            (RateLimiter.tryConsume (RateLimiter.Limiter.create 3 1000)
              (RateLimiter.tryConsume (RateLimiter.Limiter.create 3 1000)
                RateLimiter.emptyBuckets "k" 0).2 "k" 100).2 "k" 200).2 "k" 300).2
          "k" 1500).1.allowed = true ∧
     (RateLimiter.tryConsume (RateLimiter.Limiter.create 3 1000)
        (RateLimiter.tryConsume (RateLimiter.Limiter.create 3 1000)
          (RateLimiter.tryConsume (RateLimiter.Limiter.create 3 1000)
            (RateLimiter.tryConsume (RateLimiter.Limiter.create 3 1000)
              (RateLimiter.tryConsume (RateLimiter.Limiter.create 3 1000)
                RateLimiter.emptyBuckets "k" 0).2 "k" 100).2 "k" 200).2 "k" 300).2
          "k" 1500).2 "k" = some { count := 1, resetAt := 2500 }) := by
  refine ⟨?_, ?_, ?_, ?_⟩
  · intro h
    constructor
    · simp [RateLimiter.tryConsume, h, RateLimiter.setBucket]
    · simp [RateLimiter.tryConsume, h]
  · intro st h hle
    constructor
    · simp [RateLimiter.tryConsume, h, hle, RateLimiter.setBucket]
    · simp [RateLimiter.tryConsume, h, hle]
  · intro st h hlt
    have hn : ¬ st.resetAt ≤ now := not_le.mpr hlt
    constructor
    · simp [RateLimiter.tryConsume, h, hn]
    · intro hf
      simp only [RateLimiter.tryConsume, h, if_neg hn] at hf ⊢
      simp only [decide_eq_false_iff_not] at hf
      simp [hf]
  · decide

/-- Witness for C8: a fresh key opens a window with count 1, and a full
in-window bucket rejects without changing the stored state. -/
theorem tryConsume_fixed_window_witness :
    ((RateLimiter.tryConsume (RateLimiter.Limiter.create 3 1000)
        RateLimiter.emptyBuckets "k" 0).2 "k" =
      some { count := 1, resetAt := 0 + 1000 } ∧
     ((RateLimiter.tryConsume (RateLimiter.Limiter.create 3 1000)
        RateLimiter.emptyBuckets "k" 0).1.allowed = true ↔
       0 < (RateLimiter.Limiter.create 3 1000).limit)) ∧
    (((RateLimiter.tryConsume (RateLimiter.Limiter.create 3 1000) bInW "k" 5).1.allowed
        = true ↔ 3 + 1 ≤ (RateLimiter.Limiter.create 3 1000).limit) ∧
     ((RateLimiter.tryConsume (RateLimiter.Limiter.create 3 1000) bInW "k" 5).1.allowed
        = false →
      (RateLimiter.tryConsume (RateLimiter.Limiter.create 3 1000) bInW "k" 5).2 = bInW)) :=
  ⟨(tryConsume_fixed_window (RateLimiter.Limiter.create 3 1000)
      RateLimiter.emptyBuckets "k" 0).1 rfl,
   (tryConsume_fixed_window (RateLimiter.Limiter.create 3 1000) bInW "k" 5).2.2.1
     { count := 3, resetAt := 1000 } rfl (by decide)⟩

/-- C9: a connector error whose message classifies as an auth failure makes
the connector persist the raw error text on the owning account (marked
invalid) and surface a wrapped error; a non-auth error is re-thrown
unchanged with no account mutation — for both connectors. -/
theorem auth_failure_invalidates_account (account : AccountRow)
    (accounts : List AccountRow) (msg : String)
    (hvalid : account.is_valid = true) :
    (PlayStoreClient.isAuthErrorMessage msg = true →
      PlayStoreClient.fetchReviewsWithAccount account (.error msg) accounts =
        (.error ("Credentials are invalid: " ++ msg ++
           ". Please re-upload your service account JSON file."),
         SupabaseService.invalidateAccount accounts account.id msg)) ∧
    (PlayStoreClient.isAuthErrorMessage msg = false →
      PlayStoreClient.fetchReviewsWithAccount account (.error msg) accounts =
        (.error msg, accounts)) ∧
    (PlayStoreClient.strPresent account.apple_key_id = true →
      PlayStoreClient.strPresent account.apple_issuer_id = true →
      (AppStoreClient.isAuthErrorMessage msg = true →
        AppStoreClient.fetchReviewsWithAccount account (.error msg) accounts =
          (.error ("Credentials are invalid: " ++ msg ++
             ". Please re-upload your .p8 file."),
           SupabaseService.invalidateAccount accounts account.id msg)) ∧
      (AppStoreClient.isAuthErrorMessage msg = false →
        AppStoreClient.fetchReviewsWithAccount account (.error msg) accounts =
          (.error msg, accounts))) ∧
    (∀ a ∈ SupabaseService.invalidateAccount accounts account.id msg,
      a.id = account.id → a.is_valid = false ∧ a.validation_error = some msg) := by
  refine ⟨?_, ?_, ?_, ?_⟩
  · intro hauth
    simp [PlayStoreClient.fetchReviewsWithAccount, hvalid, hauth]
  · intro hauth
    simp [PlayStoreClient.fetchReviewsWithAccount, hvalid, hauth]
  · intro hk hi
    constructor
    · intro hauth
      simp [AppStoreClient.fetchReviewsWithAccount, hvalid, hk, hi, hauth]
    · intro hauth
      simp [AppStoreClient.fetchReviewsWithAccount, hvalid, hk, hi, hauth]
  · intro a ha hid
    rcases List.mem_map.mp ha with ⟨a0, ha0, rfl⟩
    by_cases h0 : a0.id = account.id
    · simp [h0]
    · rw [if_neg h0] at hid ⊢
      exact absurd hid h0

/-- Witness for C9: a 401-classified message invalidates the sample account
and wraps the error, while a transient message is re-thrown with the
accounts table untouched. -/
theorem auth_failure_invalidates_account_witness :
    (PlayStoreClient.fetchReviewsWithAccount acctW
        (.error "Request failed with status code 401") [acctW] =
      (.error ("Credentials are invalid: " ++ "Request failed with status code 401" ++
         ". Please re-upload your service account JSON file."),
       SupabaseService.invalidateAccount [acctW] acctW.id
         "Request failed with status code 401")) ∧
    (PlayStoreClient.fetchReviewsWithAccount acctW (.error "socket hang up") [acctW] =
      (.error "socket hang up", [acctW])) ∧
    (AppStoreClient.fetchReviewsWithAccount acctW
        (.error "NOT_AUTHORIZED: key revoked") [acctW] =
      (.error ("Credentials are invalid: " ++ "NOT_AUTHORIZED: key revoked" ++
         ". Please re-upload your .p8 file."),
       SupabaseService.invalidateAccount [acctW] acctW.id
         "NOT_AUTHORIZED: key revoked")) :=
  ⟨(auth_failure_invalidates_account acctW [acctW]
      "Request failed with status code 401" rfl).1 (by decide),
   (auth_failure_invalidates_account acctW [acctW] "socket hang up" rfl).2.1
     (by decide),
   ((auth_failure_invalidates_account acctW [acctW] "NOT_AUTHORIZED: key revoked"
      rfl).2.2.1 rfl rfl).1 (by decide)⟩
